import Mathlib

/-!
# gads `v201603/base.go`: the SOAP envelope transport

A shallow embedding of `ServiceUrl.String` and `Auth.request` from
`src/v201603/base.go`, with the Go standard library calls the function makes
(`encoding/xml`, `net/http`, `io/ioutil`, `os`, `fmt`, `testing`) modelled as
explicit data: library behaviour the source does not determine is a field of
`Lib`, of the `Client` held by `Auth`, or of the `Response` the client hands back.
-/

namespace Gads

/-! ## Data model -/

/-- A Go `[]byte`. -/
abbrev Bytes := List UInt8

/-- A Go `string` (kept apart from the method `ServiceUrl.String`). -/
abbrev GoString := String

/-- An error value produced by a standard-library call (`xml.MarshalIndent`,
`http.NewRequest`, `Client.Do`, `ioutil.ReadAll`, `xml.Unmarshal`). -/
structure LibError where
  msg : GoString
deriving DecidableEq

/-- Modelled from the spec: the type of `Fault.Errors` is declared outside
`base.go`; the spec describes a fault as carrying "one or more error
descriptions". `request` only takes the address of this value. -/
structure ErrorsType where
  descriptions : List GoString
deriving DecidableEq

/-- Modelled from the spec: the `Fault` struct is declared outside `base.go`;
`request` reads its `Errors` field only. -/
structure Fault where
  Errors : ErrorsType
deriving DecidableEq

/-- The values an `error` result of `request` can hold: an error handed back by
a library call, or the pointer `&fault.Errors`. A nil `error` is `none` in
`Option GoError`. -/
inductive GoError where
  | lib (e : LibError)
  | faultErrors (e : ErrorsType)
deriving DecidableEq

/-- Go `type ServiceUrl struct`, with its fields `Url` and `Name`. -/
structure ServiceUrl where
  Url : GoString
  Name : GoString
deriving DecidableEq

def version : GoString := "v201603"
def baseUrl : GoString := "https://adwords.google.com/api/adwords/cm/" ++ version
def baseReportDownloadUrl : GoString :=
  "https://adwords.google.com/api/adwords/reportdownload/" ++ version

def campaignServiceUrl : ServiceUrl := ⟨baseUrl, "CampaignService"⟩
def reportDownloadServiceUrl : ServiceUrl := ⟨baseReportDownloadUrl, ""⟩

/-- Go `func (s ServiceUrl) String() string`. -/
def ServiceUrl.String (s : ServiceUrl) : GoString :=
  if s.Name != "" then s.Url ++ "/" ++ s.Name else s.Url

/-! ### `net/http` values -/

/-- Go `http.Header`: canonical key to the values added under it, in order. -/
structure Header where
  entries : List (GoString × List GoString)
deriving DecidableEq

/-- Go `textproto.CanonicalMIMEHeaderKey` on a key made of token characters: the
first letter and every letter after a hyphen upper case, the others lower case. -/
def canonicalChars : Bool → List Char → List Char
  | _, [] => []
  | upper, c :: cs =>
    (if upper then c.toUpper else c.toLower) :: canonicalChars (c == '-') cs

def CanonicalMIMEHeaderKey (key : GoString) : GoString :=
  String.mk (canonicalChars true key.data)

/-- The body of `Header.Add` once the key is canonical. -/
def headerAppend (key value : GoString) :
    List (GoString × List GoString) → List (GoString × List GoString)
  | [] => [(key, [value])]
  | (k, vs) :: rest =>
    if k = key then (k, vs ++ [value]) :: rest else (k, vs) :: headerAppend key value rest

/-- Go `func (h Header) Add(key, value string)`. -/
def Header.Add (h : Header) (key value : GoString) : Header :=
  ⟨headerAppend (CanonicalMIMEHeaderKey key) value h.entries⟩

def headerLookup (key : GoString) : List (GoString × List GoString) → List GoString
  | [] => []
  | (k, vs) :: rest => if k = key then vs else headerLookup key rest

/-- Go `func (h Header) Values(key string) []string`. -/
def Header.Values (h : Header) (key : GoString) : List GoString :=
  headerLookup (CanonicalMIMEHeaderKey key) h.entries

/-- A parsed `*url.URL`, by the text its `String` method prints. -/
structure URL where
  text : GoString
deriving DecidableEq

/-- The parts of an `*http.Request` that `request` sets or prints. `URL` is the
value `url.Parse` made of the string given to `http.NewRequest`. -/
structure Request where
  Method : GoString
  URL : URL
  Header : Header
  Body : Bytes
deriving DecidableEq

/-- The stream `resp.Body`, as far as `ioutil.ReadAll` sees it: the bytes it reads and the
error it ends with, if any. -/
structure BodyStream where
  data : Bytes
  err : Option LibError
deriving DecidableEq

/-- Go `func ReadAll(r io.Reader) ([]byte, error)`. -/
def ReadAll (b : BodyStream) : Bytes × Option LibError := (b.data, b.err)

/-- The parts of an `*http.Response` that `request` reads. -/
structure Response where
  Status : GoString
  StatusCode : Int
  Body : BodyStream
deriving DecidableEq

/-- Go `*http.Client`, by what `Do` answers to a request. -/
structure Client where
  Do : Request → Except LibError Response

/-- A non-nil `*testing.T`. -/
structure TestingT where
  name : GoString
deriving DecidableEq

/-- Go `type Auth struct`. `Testing` and `Client` are pointers: `none` is nil. -/
structure Auth where
  CustomerId : GoString
  DeveloperToken : GoString
  UserAgent : GoString
  PartialFailure : Bool
  Testing : Option TestingT
  Client : Option Client

/-! ### `encoding/xml` values -/

/-- Go `xml.Name`. -/
structure XmlName where
  Space : GoString
  Local : GoString
deriving DecidableEq

/-- An XML document as `encoding/xml` builds it before printing: elements and
character data. -/
inductive XmlNode where
  | element (name : XmlName) (children : List XmlNode)
  | text (s : GoString)

/-- The `body interface{}` argument, by what `encoding/xml` makes of it: the
nodes it marshals to, or the error marshalling it raises. -/
structure Payload where
  marshal : Except LibError (List XmlNode)

/-- The local type `soapReqHeader` of `request`. -/
structure soapReqHeader where
  XMLName : XmlName
  UserAgent : GoString
  DeveloperToken : GoString
  ClientCustomerId : GoString
  PartialFailure : Bool
deriving DecidableEq

/-- The local type `soapReqBody` of `request`. -/
structure soapReqBody where
  Body : Payload

/-- The local type `soapReqEnvelope` of `request`. -/
structure soapReqEnvelope where
  XMLName : XmlName
  Header : soapReqHeader
  Body : soapReqBody

/-- The local type `soapRespHeader` of `request`. -/
structure soapRespHeader where
  RequestId : GoString
  ServiceName : GoString
  MethodName : GoString
  Operations : Int
  ResponseTime : Int
deriving DecidableEq

/-- The local type `soapRespBody` of `request`: `Response` is the inner XML. -/
structure soapRespBody where
  Response : Bytes
deriving DecidableEq

/-- The anonymous struct `soapResp` of `request` (its `XMLName` is never read). -/
structure soapRespEnvelope where
  Header : soapRespHeader
  Body : soapRespBody
deriving DecidableEq

/-- The value of a struct field that carries an `xml:"name"` tag. -/
inductive FieldValue where
  | str (s : GoString)
  | bool (b : Bool)
deriving DecidableEq

/-- A struct field as its `xml` tag describes it. -/
structure Field where
  name : GoString
  omitempty : Bool
  value : FieldValue
deriving DecidableEq

/-- The test `isEmptyValue` of `encoding/xml`: a string of length zero and `false` are empty. -/
def isEmptyValue : FieldValue → Bool
  | .str s => s.length == 0
  | .bool b => !b

/-- The character data a simple value marshals to (`strconv.FormatBool` for a bool). -/
def FieldValue.chardata : FieldValue → GoString
  | .str s => s
  | .bool b => if b then "true" else "false"

/-- One tagged field: nothing when it is `omitempty` and empty, else one element
named by the tag. -/
def marshalField (f : Field) : List XmlNode :=
  if f.omitempty && isEmptyValue f.value then []
  else [XmlNode.element ⟨"", f.name⟩ [XmlNode.text f.value.chardata]]

/-- The tagged fields of `soapReqHeader`, in declaration order. -/
def soapReqHeader.fields (h : soapReqHeader) : List Field :=
  [ ⟨"userAgent", false, .str h.UserAgent⟩,
    ⟨"developerToken", false, .str h.DeveloperToken⟩,
    ⟨"clientCustomerId", true, .str h.ClientCustomerId⟩,
    ⟨"partialFailure", true, .bool h.PartialFailure⟩ ]

/-- The element a `soapReqHeader` marshals to; it is named by its `XMLName` value. -/
def soapReqHeader.marshal (h : soapReqHeader) : XmlNode :=
  XmlNode.element h.XMLName (h.fields.flatMap marshalField)

def soapNamespace : GoString := "http://schemas.xmlsoap.org/soap/envelope/"

/-- The document a `soapReqEnvelope` marshals to: `Header>RequestHeader` and the
namespaced `Body` holding the payload. Only the payload can fail to marshal. -/
def soapReqEnvelope.marshal (e : soapReqEnvelope) : Except LibError XmlNode :=
  match e.Body.Body.marshal with
  | .error err => .error err
  | .ok nodes =>
    .ok (XmlNode.element e.XMLName
      [ XmlNode.element ⟨"", "Header"⟩ [e.Header.marshal],
        XmlNode.element ⟨soapNamespace, "Body"⟩ nodes ])

/-! ### The library and the trace of a call -/

/-- What `request` takes from the standard library and the process environment. -/
structure Lib where
  /-- Go `os.Getenv`. -/
  Getenv : GoString → GoString
  /-- The printer of `xml.MarshalIndent`, given the line lead and the indent. -/
  encode : GoString → GoString → XmlNode → Bytes
  /-- The error `http.NewRequest` raises for a method and URL, if any. -/
  newRequestError : GoString → GoString → Option LibError
  /-- The value `url.Parse` gives for a string it accepts. -/
  urlParse : GoString → URL
  /-- Go `xml.Unmarshal` into the response envelope. -/
  UnmarshalEnvelope : Bytes → Except LibError soapRespEnvelope
  /-- Go `xml.Unmarshal` into a `Fault`. -/
  UnmarshalFault : Bytes → Except LibError Fault

/-- Go `xml.MarshalIndent` on a request envelope. -/
def MarshalIndent (lib : Lib) (e : soapReqEnvelope) (lead indent : GoString) :
    Except LibError Bytes :=
  match e.marshal with
  | .error err => .error err
  | .ok doc => .ok (lib.encode lead indent doc)

/-- Go `http.NewRequest`: a nil request and the error, or the request with the
parsed URL, no header set, and a nil error. -/
def NewRequest (lib : Lib) (method url : GoString) (body : Bytes) :
    Option Request × Option LibError :=
  match lib.newRequestError method url with
  | some e => (none, some e)
  | none => (some ⟨method, lib.urlParse url, ⟨[]⟩, body⟩, none)

/-- An argument of a `Printf` or `Logf` call (`bytes b` is `string(b)`). -/
inductive Arg where
  | str (s : GoString)
  | bytes (b : Bytes)
  | header (h : Header)
deriving DecidableEq

/-- What an `xml.Unmarshal` call decodes into. -/
inductive Target where
  | envelope
  | fault
deriving DecidableEq

/-- The effects of a call, in order: writes to standard output (`fmt.Printf`),
writes to the test log (`Testing.Logf`), requests handed to `Client.Do`, and
`xml.Unmarshal` calls. -/
inductive Event where
  | Printf (format : GoString) (args : List Arg)
  | Logf (format : GoString) (args : List Arg)
  | Do (req : Request)
  | Unmarshal (target : Target) (data : Bytes)
deriving DecidableEq

/-- How a call ends: it returns `(respBody, err)`, or it panics on a nil
pointer dereference. -/
inductive Outcome where
  | returned (respBody : Bytes) (err : Option GoError)
  | panicked
deriving DecidableEq

/-- A finished call: its outcome and its effects. -/
structure Run where
  outcome : Outcome
  events : List Event
deriving DecidableEq

/-! ## `Auth.request` -/

/-- The status test guarding the fault branch:
`resp.StatusCode == 400 || ... == 401 || ... == 403 || ... == 405 || ... == 500`. -/
def faultStatus (code : Int) : Bool :=
  code == 400 || code == 401 || code == 403 || code == 405 || code == 500

/-- The header built at the top of `request`: the struct literal, then
`if a.PartialFailure { reqHead.PartialFailure = true }`. -/
def reqHead (a : Auth) (serviceUrl : ServiceUrl) : soapReqHeader :=
  let reqHead : soapReqHeader :=
    { XMLName := ⟨serviceUrl.Url, "RequestHeader"⟩
      UserAgent := a.UserAgent
      DeveloperToken := a.DeveloperToken
      ClientCustomerId := a.CustomerId
      PartialFailure := false }
  if a.PartialFailure then { reqHead with PartialFailure := true } else reqHead

/-- The envelope literal handed to `xml.MarshalIndent`. -/
def reqEnvelope (a : Auth) (serviceUrl : ServiceUrl) (body : Payload) : soapReqEnvelope :=
  { XMLName := ⟨soapNamespace, "Envelope"⟩
    Header := reqHead a serviceUrl
    Body := ⟨body⟩ }

/-- From `http.NewRequest` to the last `req.Header.Add`. The error of
`http.NewRequest` is not looked at; `none` is the nil `req`, on which
`req.Header.Add` dereferences a nil pointer. -/
def buildRequest (lib : Lib) (serviceUrl : ServiceUrl) (action : GoString) (reqBody : Bytes) :
    Option Request :=
  match (NewRequest lib "POST" serviceUrl.String reqBody).1 with
  | none => none
  | some req =>
    let h := req.Header.Add "Accept" "text/xml"
    let h := h.Add "Accept" "multipart/*"
    let h := h.Add "Content-Type" "text/xml;charset=UTF-8"
    let contentLength := toString reqBody.length
    let h := h.Add "Content-length" contentLength
    let h := h.Add "SOAPAction" action
    some { req with Header := h }

/-- The rest of `request` once `a.Client.Do` has answered `resp` with a nil
error: read the body, log, decode the envelope, branch on the status. The error
of `ioutil.ReadAll` is overwritten by the result of `xml.Unmarshal`. -/
def receive (lib : Lib) (a : Auth) (resp : Response) : Run :=
  let respBody := (ReadAll resp.Body).1
  let debugLog :=
    if lib.Getenv "DEBUG" != "" then [Event.Printf "response ->\n%s\n" [.bytes respBody]]
    else []
  let testLog :=
    if a.Testing.isSome then
      [Event.Logf "respBody ->\n%s\n%s\n" [.bytes respBody, .str resp.Status]]
    else []
  let trace := debugLog ++ testLog ++ [Event.Unmarshal .envelope respBody]
  match lib.UnmarshalEnvelope respBody with
  | .error err => ⟨.returned respBody (some (.lib err)), trace⟩
  | .ok soapResp =>
    if faultStatus resp.StatusCode then
      let trace := trace ++
        [ Event.Printf "unknown error ->\n%s\n" [.bytes soapResp.Body.Response],
          Event.Unmarshal .fault soapResp.Body.Response ]
      match lib.UnmarshalFault soapResp.Body.Response with
      | .error err => ⟨.returned respBody (some (.lib err)), trace⟩
      | .ok fault => ⟨.returned soapResp.Body.Response (some (.faultErrors fault.Errors)), trace⟩
    else ⟨.returned soapResp.Body.Response none, trace⟩

/-- Go `func (a *Auth) request(serviceUrl ServiceUrl, action string, body interface{})
(respBody []byte, err error)`. -/
def request (lib : Lib) (a : Auth) (serviceUrl : ServiceUrl) (action : GoString)
    (body : Payload) : Run :=
  match MarshalIndent lib (reqEnvelope a serviceUrl body) "  " "  " with
  | .error err => ⟨.returned [] (some (.lib err)), []⟩
  | .ok reqBody =>
    match buildRequest lib serviceUrl action reqBody with
    | none => ⟨.panicked, []⟩
    | some req =>
      let testLog :=
        if a.Testing.isSome then
          [Event.Logf "request ->\n%s\n%#v\n%s\n" [.str req.URL.text, .header req.Header, .bytes reqBody]]
        else []
      let debugLog :=
        if lib.Getenv "DEBUG" != "" then
          [Event.Printf "request ->\n%s\n%#v\n%s\n" [.str req.URL.text, .header req.Header, .bytes reqBody]]
        else []
      let trace := testLog ++ debugLog
      match a.Client with
      | none => ⟨.panicked, trace⟩
      | some client =>
        match client.Do req with
        | .error err => ⟨.returned [] (some (.lib err)), trace ++ [Event.Do req]⟩
        | .ok resp =>
          let rest := receive lib a resp
          ⟨rest.outcome, trace ++ [Event.Do req] ++ rest.events⟩

/-! ### Readings of a trace -/

/-- The requests handed to `Client.Do`. -/
def sentRequests : List Event → List Request
  | [] => []
  | Event.Do req :: evs => req :: sentRequests evs
  | _ :: evs => sentRequests evs

/-- The writes to a diagnostic sink: standard output or the test log. -/
def logWrites (evs : List Event) : List Event :=
  evs.filter fun ev =>
    match ev with
    | Event.Printf _ _ => true
    | Event.Logf _ _ => true
    | _ => false

/-- The child elements of a node that carry a given local name. -/
def childrenNamed (n : GoString) : XmlNode → List XmlNode
  | XmlNode.element _ children =>
    children.filter fun c =>
      match c with
      | XmlNode.element name _ => name.Local == n
      | XmlNode.text _ => false
  | XmlNode.text _ => []

/-- The call gets as far as a response: the envelope marshals, `http.NewRequest`
gives a request, `a.Client` is not nil and `Do` answers `resp` with a nil error. -/
def Receives (lib : Lib) (a : Auth) (serviceUrl : ServiceUrl) (action : GoString)
    (body : Payload) (resp : Response) : Prop :=
  ∃ reqBody req client,
    MarshalIndent lib (reqEnvelope a serviceUrl body) "  " "  " = .ok reqBody ∧
    buildRequest lib serviceUrl action reqBody = some req ∧
    a.Client = some client ∧
    client.Do req = .ok resp

/-! ## Sample values -/

/-- ASCII text as bytes. -/
def bytesOf (s : GoString) : Bytes := s.data.map fun c => c.toNat.toUInt8

/-- The scheme of a URL, the part before the first colon, put in lower case as
`url.Parse` does; the rest is kept. -/
def lowerScheme (url : GoString) : GoString :=
  String.mk ((url.data.takeWhile (fun c => c != ':')).map Char.toLower ++
    url.data.dropWhile (fun c => c != ':'))

/-- A response envelope whose `Body` holds `<x/>`. -/
def plainEnvelope : Bytes :=
  bytesOf ("<Envelope xmlns=\"http://schemas.xmlsoap.org/soap/envelope/\">" ++
    "<Body><x/></Body></Envelope>")

/-- A response envelope whose `Body` holds a fault. -/
def faultEnvelope : Bytes :=
  bytesOf ("<Envelope xmlns=\"http://schemas.xmlsoap.org/soap/envelope/\">" ++
    "<Body><Fault><faultstring>quota</faultstring></Fault></Body></Envelope>")

/-- A response envelope with an empty `Body`. -/
def emptyEnvelope : Bytes :=
  bytesOf ("<Envelope xmlns=\"http://schemas.xmlsoap.org/soap/envelope/\">" ++
    "<Body></Body></Envelope>")

def faultInner : Bytes := bytesOf "<Fault><faultstring>quota</faultstring></Fault>"

/-- A library fixed on the inputs used below: the debug variable is unset, the
three envelopes above decode, a URL that is a lone colon does not parse, and a
URL that parses is printed back with its scheme in lower case. -/
def sampleLib : Lib where
  urlParse := fun url => ⟨lowerScheme url⟩
  Getenv := fun _ => ""
  encode := fun _ _ _ => bytesOf "<Envelope></Envelope>"
  newRequestError := fun _ url =>
    if url = ":" then some ⟨"missing protocol scheme"⟩ else none
  UnmarshalEnvelope := fun b =>
    if b = plainEnvelope then .ok ⟨⟨"", "", "", 0, 0⟩, ⟨bytesOf "<x/>"⟩⟩
    else if b = faultEnvelope then .ok ⟨⟨"", "", "", 0, 0⟩, ⟨faultInner⟩⟩
    else if b = emptyEnvelope then .ok ⟨⟨"", "", "", 0, 0⟩, ⟨[]⟩⟩
    else .error ⟨"EOF"⟩
  UnmarshalFault := fun b =>
    if b = faultInner then .ok ⟨⟨["quota"]⟩⟩ else .error ⟨"EOF"⟩

/-- A client that answers every request with the given status and body. -/
def answering (status : GoString) (code : Int) (data : Bytes) (err : Option LibError) :
    Client where
  Do := fun _ => .ok ⟨status, code, ⟨data, err⟩⟩

/-- Credentials with no test hook, over a given client. -/
def sampleAuth (client : Client) : Auth :=
  { CustomerId := "123", DeveloperToken := "tok", UserAgent := "gads",
    PartialFailure := false, Testing := none, Client := some client }

/-- A payload that marshals to one empty element. -/
def samplePayload : Payload where
  marshal := .ok [XmlNode.element ⟨"", "get"⟩ []]

/-- The request the sample call builds for an endpoint. -/
def sampleRequest (serviceUrl : ServiceUrl) : Request :=
  { Method := "POST"
    URL := ⟨lowerScheme serviceUrl.String⟩
    Header := ⟨[("Accept", ["text/xml", "multipart/*"]),
      ("Content-Type", ["text/xml;charset=UTF-8"]),
      ("Content-Length", ["21"]),
      ("Soapaction", ["get"])]⟩
    Body := bytesOf "<Envelope></Envelope>" }

/-! ## Lemmas -/

theorem faultStatus_iff (code : Int) :
    faultStatus code = true ↔ code ∈ [400, 401, 403, 405, 500] := by
  simp [faultStatus, or_assoc]

theorem faultStatus_eq_false_iff (code : Int) :
    faultStatus code = false ↔ code ∉ [400, 401, 403, 405, 500] := by
  rw [← faultStatus_iff]; simp

/-- Once a response is received, the call ends as `receive` ends. -/
theorem outcome_of_receives {lib : Lib} {a : Auth} {serviceUrl : ServiceUrl}
    {action : GoString} {body : Payload} {resp : Response}
    (h : Receives lib a serviceUrl action body resp) :
    (request lib a serviceUrl action body).outcome = (receive lib a resp).outcome := by
  obtain ⟨reqBody, req, client, hm, hb, hc, hd⟩ := h
  simp only [request, hm, hb, hc, hd]

/-- Once a response is received, the trace is the request log, the `Do` call,
then the trace of `receive`. -/
theorem events_of_receives {lib : Lib} {a : Auth} {serviceUrl : ServiceUrl}
    {action : GoString} {body : Payload} {resp : Response}
    (h : Receives lib a serviceUrl action body resp) :
    ∃ reqBody req,
      buildRequest lib serviceUrl action reqBody = some req ∧
      (request lib a serviceUrl action body).events =
        (if a.Testing.isSome then
            [Event.Logf "request ->\n%s\n%#v\n%s\n"
              [.str req.URL.text, .header req.Header, .bytes reqBody]]
          else []) ++
        (if lib.Getenv "DEBUG" != "" then
            [Event.Printf "request ->\n%s\n%#v\n%s\n"
              [.str req.URL.text, .header req.Header, .bytes reqBody]]
          else []) ++ [Event.Do req] ++ (receive lib a resp).events := by
  obtain ⟨reqBody, req, client, hm, hb, hc, hd⟩ := h
  exact ⟨reqBody, req, hb, by simp only [request, hm, hb, hc, hd]⟩

/-- The sample call reaches the response of the sample client. -/
theorem sample_receives (serviceUrl : ServiceUrl) (hu : serviceUrl.String ≠ ":")
    (status : GoString) (code : Int) (data : Bytes) (err : Option LibError) :
    Receives sampleLib (sampleAuth (answering status code data err)) serviceUrl "get"
      samplePayload ⟨status, code, ⟨data, err⟩⟩ := by
  refine ⟨bytesOf "<Envelope></Envelope>", sampleRequest serviceUrl,
    answering status code data err, rfl, ?_, rfl, rfl⟩
  simp only [buildRequest, NewRequest, sampleLib, hu, if_false]
  rfl

/-! ## Fault detection -/

/-- C1: when the call receives a response whose envelope decodes, whose status
code is one of 400, 401, 403, 405, 500 and whose inner body decodes as a fault,
`request` returns the inner body bytes together with the non-nil error
`&fault.Errors` of the decoded fault. -/
theorem request_fault_status_returns_fault (lib : Lib) (a : Auth) (serviceUrl : ServiceUrl)
    (action : GoString) (body : Payload) (resp : Response) (soapResp : soapRespEnvelope)
    (fault : Fault)
    (hr : Receives lib a serviceUrl action body resp)
    (he : lib.UnmarshalEnvelope (ReadAll resp.Body).1 = .ok soapResp)
    (hs : resp.StatusCode ∈ [400, 401, 403, 405, 500])
    (hf : lib.UnmarshalFault soapResp.Body.Response = .ok fault) :
    (request lib a serviceUrl action body).outcome =
      .returned soapResp.Body.Response (some (.faultErrors fault.Errors)) := by
  rw [outcome_of_receives hr]
  simp only [receive, he, (faultStatus_iff _).2 hs, hf, if_true]

theorem request_fault_status_returns_fault_witness :
    (request sampleLib (sampleAuth (answering "500 Internal Server Error" 500 faultEnvelope none))
        campaignServiceUrl "get" samplePayload).outcome =
      .returned faultInner (some (.faultErrors ⟨["quota"]⟩)) :=
  request_fault_status_returns_fault sampleLib _ campaignServiceUrl "get" samplePayload
    ⟨"500 Internal Server Error", 500, ⟨faultEnvelope, none⟩⟩
    ⟨⟨"", "", "", 0, 0⟩, ⟨faultInner⟩⟩ ⟨⟨["quota"]⟩⟩
    (sample_receives campaignServiceUrl (by decide) _ _ _ _) rfl (by decide) rfl

/-- C2: when the call receives a response whose envelope decodes and whose
status code is none of 400, 401, 403, 405, 500, `request` returns the inner body
bytes with a nil error, and no `xml.Unmarshal` into a `Fault` is made. -/
theorem request_other_status_returns_body (lib : Lib) (a : Auth) (serviceUrl : ServiceUrl)
    (action : GoString) (body : Payload) (resp : Response) (soapResp : soapRespEnvelope)
    (hr : Receives lib a serviceUrl action body resp)
    (he : lib.UnmarshalEnvelope (ReadAll resp.Body).1 = .ok soapResp)
    (hs : resp.StatusCode ∉ [400, 401, 403, 405, 500]) :
    (request lib a serviceUrl action body).outcome = .returned soapResp.Body.Response none ∧
      ∀ data, Event.Unmarshal .fault data ∉ (request lib a serviceUrl action body).events := by
  have hs2 := (faultStatus_eq_false_iff _).2 hs
  refine ⟨?_, ?_⟩
  · rw [outcome_of_receives hr]
    simp [receive, he, hs2]
  · intro data
    obtain ⟨reqBody, req, -, hev⟩ := events_of_receives hr
    rw [hev]
    simp only [receive, he, hs2, Bool.false_eq_true, if_false]
    split_ifs <;> simp

theorem request_other_status_returns_body_witness :
    (request sampleLib (sampleAuth (answering "503 Service Unavailable" 503 faultEnvelope none))
        campaignServiceUrl "get" samplePayload).outcome = .returned faultInner none ∧
      ∀ data, Event.Unmarshal .fault data ∉
        (request sampleLib (sampleAuth (answering "503 Service Unavailable" 503 faultEnvelope none))
          campaignServiceUrl "get" samplePayload).events :=
  request_other_status_returns_body sampleLib _ campaignServiceUrl "get" samplePayload
    ⟨"503 Service Unavailable", 503, ⟨faultEnvelope, none⟩⟩
    ⟨⟨"", "", "", 0, 0⟩, ⟨faultInner⟩⟩
    (sample_receives campaignServiceUrl (by decide) _ _ _ _) rfl (by decide)

/-- C10: when the call receives a response whose envelope decodes and whose
status code is one of 400, 401, 403, 405, 500, and decoding the inner body as a
fault fails, `request` returns that decoding error as its error (a library
error, so neither nil nor `&fault.Errors`), with the response bytes as read. -/
theorem request_fault_status_decode_error (lib : Lib) (a : Auth) (serviceUrl : ServiceUrl)
    (action : GoString) (body : Payload) (resp : Response) (soapResp : soapRespEnvelope)
    (err : LibError)
    (hr : Receives lib a serviceUrl action body resp)
    (he : lib.UnmarshalEnvelope (ReadAll resp.Body).1 = .ok soapResp)
    (hs : resp.StatusCode ∈ [400, 401, 403, 405, 500])
    (hf : lib.UnmarshalFault soapResp.Body.Response = .error err) :
    (request lib a serviceUrl action body).outcome =
      .returned (ReadAll resp.Body).1 (some (.lib err)) := by
  rw [outcome_of_receives hr]
  simp only [receive, he, (faultStatus_iff _).2 hs, hf, if_true]

theorem request_fault_status_decode_error_witness :
    (request sampleLib (sampleAuth (answering "500 Internal Server Error" 500 emptyEnvelope none))
        campaignServiceUrl "get" samplePayload).outcome =
      .returned emptyEnvelope (some (.lib ⟨"EOF"⟩)) :=
  request_fault_status_decode_error sampleLib _ campaignServiceUrl "get" samplePayload
    ⟨"500 Internal Server Error", 500, ⟨emptyEnvelope, none⟩⟩
    ⟨⟨"", "", "", 0, 0⟩, ⟨[]⟩⟩ ⟨"EOF"⟩
    (sample_receives campaignServiceUrl (by decide) _ _ _ _) rfl (by decide) rfl

/-! ## An envelope that does not decode -/

/-- C3, as stated, fails: a response body that does not decode as an envelope
is handed back whole with the error, not replaced by an empty result. -/
theorem request_envelope_error_not_empty :
    ¬ ∀ (lib : Lib) (a : Auth) (serviceUrl : ServiceUrl) (action : GoString) (body : Payload)
        (resp : Response) (err : LibError),
        Receives lib a serviceUrl action body resp →
        lib.UnmarshalEnvelope (ReadAll resp.Body).1 = .error err →
        (request lib a serviceUrl action body).outcome = .returned [] (some (.lib err)) := by
  intro h
  have h1 := h sampleLib (sampleAuth (answering "200 OK" 200 (bytesOf "oops") none))
    campaignServiceUrl "get" samplePayload ⟨"200 OK", 200, ⟨bytesOf "oops", none⟩⟩ ⟨"EOF"⟩
    (sample_receives campaignServiceUrl (by decide) _ _ _ _) rfl
  revert h1
  decide

/-- C3, amended: when the call receives a response whose body does not decode
as an envelope, `request` returns the decoding error together with the response
bytes exactly as `ioutil.ReadAll` gave them. -/
theorem request_envelope_error_returns_raw (lib : Lib) (a : Auth) (serviceUrl : ServiceUrl)
    (action : GoString) (body : Payload) (resp : Response) (err : LibError)
    (hr : Receives lib a serviceUrl action body resp)
    (he : lib.UnmarshalEnvelope (ReadAll resp.Body).1 = .error err) :
    (request lib a serviceUrl action body).outcome =
      .returned (ReadAll resp.Body).1 (some (.lib err)) := by
  rw [outcome_of_receives hr]
  simp only [receive, he]

theorem request_envelope_error_returns_raw_witness :
    (request sampleLib (sampleAuth (answering "200 OK" 200 (bytesOf "oops") none))
        campaignServiceUrl "get" samplePayload).outcome =
      .returned (bytesOf "oops") (some (.lib ⟨"EOF"⟩)) :=
  request_envelope_error_returns_raw sampleLib _ campaignServiceUrl "get" samplePayload
    ⟨"200 OK", 200, ⟨bytesOf "oops", none⟩⟩ ⟨"EOF"⟩
    (sample_receives campaignServiceUrl (by decide) _ _ _ _) rfl

/-! ## Errors that are not returned -/

/-- C4: two errors raised inside `request` do not reach the caller. With a
response whose body read ends in an error after a complete envelope, the call
returns the inner bytes and a nil error; with an endpoint `http.NewRequest`
rejects, the call panics on the nil request instead of returning the error. -/
theorem request_unchecked_errors :
    ((ReadAll ⟨plainEnvelope, some ⟨"unexpected EOF"⟩⟩).2 = some ⟨"unexpected EOF"⟩ ∧
      (request sampleLib
          (sampleAuth (answering "200 OK" 200 plainEnvelope (some ⟨"unexpected EOF"⟩)))
          campaignServiceUrl "get" samplePayload).outcome = .returned (bytesOf "<x/>") none) ∧
    ((NewRequest sampleLib "POST" (ServiceUrl.String ⟨":", ""⟩)
          (bytesOf "<Envelope></Envelope>")).2 = some ⟨"missing protocol scheme"⟩ ∧
      (request sampleLib (sampleAuth (answering "200 OK" 200 plainEnvelope none))
          ⟨":", ""⟩ "get" samplePayload).outcome = .panicked) := by
  decide

/-! ## The request header and the request -/

/-- C5: the `RequestHeader` element that `request` serializes (the bytes sent
are the print of an envelope holding it) has no `partialFailure` child when
`a.PartialFailure` is false and exactly one, with the text `true`, when it is
true. -/
theorem reqHead_partialFailure (lib : Lib) (a : Auth) (serviceUrl : ServiceUrl)
    (body : Payload) :
    MarshalIndent lib (reqEnvelope a serviceUrl body) "  " "  " =
        body.marshal.map (fun nodes =>
          lib.encode "  " "  "
            (XmlNode.element ⟨soapNamespace, "Envelope"⟩
              [ XmlNode.element ⟨"", "Header"⟩ [(reqHead a serviceUrl).marshal],
                XmlNode.element ⟨soapNamespace, "Body"⟩ nodes ])) ∧
      childrenNamed "partialFailure" (reqHead a serviceUrl).marshal =
        if a.PartialFailure then
          [XmlNode.element ⟨"", "partialFailure"⟩ [XmlNode.text "true"]]
        else [] := by
  constructor
  · simp only [MarshalIndent, soapReqEnvelope.marshal, reqEnvelope]
    cases body.marshal <;> rfl
  · cases hp : a.PartialFailure <;>
      simp [childrenNamed, soapReqHeader.marshal, soapReqHeader.fields, reqHead, hp,
        marshalField, isEmptyValue, FieldValue.chardata, List.filter]

/-- The request `buildRequest` gives, when `http.NewRequest` gives one. -/
theorem buildRequest_eq_some {lib : Lib} {serviceUrl : ServiceUrl} {action : GoString}
    {reqBody : Bytes} {req : Request}
    (hb : buildRequest lib serviceUrl action reqBody = some req) :
    req =
      { Method := "POST"
        URL := lib.urlParse serviceUrl.String
        Header := ⟨[("Accept", ["text/xml", "multipart/*"]),
          ("Content-Type", ["text/xml;charset=UTF-8"]),
          ("Content-Length", [toString reqBody.length]),
          ("Soapaction", [action])]⟩
        Body := reqBody } := by
  have hA : CanonicalMIMEHeaderKey "Accept" = "Accept" := by decide
  have hT : CanonicalMIMEHeaderKey "Content-Type" = "Content-Type" := by decide
  have hL : CanonicalMIMEHeaderKey "Content-length" = "Content-Length" := by decide
  have hS : CanonicalMIMEHeaderKey "SOAPAction" = "Soapaction" := by decide
  unfold buildRequest NewRequest at hb
  cases hn : lib.newRequestError "POST" serviceUrl.String with
  | some e => simp [hn] at hb
  | none =>
    simp only [hn, Option.some.injEq] at hb
    rw [← hb]
    simp [Header.Add, headerAppend, hA, hT, hL, hS]

theorem sentRequests_append (xs ys : List Event) :
    sentRequests (xs ++ ys) = sentRequests xs ++ sentRequests ys := by
  induction xs with
  | nil => rfl
  | cons x xs ih => cases x <;> simp [sentRequests, ih]

/-- The rest of the call, `receive`, hands nothing to `Client.Do`. -/
theorem sentRequests_receive (lib : Lib) (a : Auth) (resp : Response) :
    sentRequests (receive lib a resp).events = [] := by
  cases he : lib.UnmarshalEnvelope (ReadAll resp.Body).1 with
  | error err => simp only [receive, he]; split_ifs <;> rfl
  | ok soapResp =>
    cases hf : lib.UnmarshalFault soapResp.Body.Response <;>
      simp only [receive, he, hf] <;> split_ifs <;> rfl

theorem sentRequests_ite_logf (c : Prop) [Decidable c] (f : GoString) (args : List Arg) :
    sentRequests (if c then [Event.Logf f args] else []) = [] := by
  split_ifs <;> rfl

theorem sentRequests_ite_printf (c : Prop) [Decidable c] (f : GoString) (args : List Arg) :
    sentRequests (if c then [Event.Printf f args] else []) = [] := by
  split_ifs <;> rfl

/-- Every request handed to `Client.Do` is the one `buildRequest` gave. -/
theorem sentRequests_eq (lib : Lib) (a : Auth) (serviceUrl : ServiceUrl) (action : GoString)
    (body : Payload) (r : Request)
    (hr : r ∈ sentRequests (request lib a serviceUrl action body).events) :
    ∃ reqBody,
      MarshalIndent lib (reqEnvelope a serviceUrl body) "  " "  " = .ok reqBody ∧
      buildRequest lib serviceUrl action reqBody = some r := by
  unfold request at hr
  cases hm : MarshalIndent lib (reqEnvelope a serviceUrl body) "  " "  " with
  | error err => simp [hm, sentRequests] at hr
  | ok reqBody =>
    cases hb : buildRequest lib serviceUrl action reqBody with
    | none => simp [hm, hb, sentRequests] at hr
    | some req =>
      refine ⟨reqBody, rfl, ?_⟩
      cases hc : a.Client with
      | none =>
        simp only [hm, hb, hc, sentRequests_append, sentRequests_ite_logf,
          sentRequests_ite_printf] at hr
        simp at hr
      | some client =>
        cases hd : client.Do req with
        | error err =>
          simp only [hm, hb, hc, hd, sentRequests_append, sentRequests_ite_logf,
            sentRequests_ite_printf, sentRequests] at hr
          simp at hr
          rw [hr, hb]
        | ok resp =>
          simp only [hm, hb, hc, hd, sentRequests_append, sentRequests_ite_logf,
            sentRequests_ite_printf, sentRequests_receive, sentRequests] at hr
          simp at hr
          rw [hr, hb]

/-- When the envelope marshals, `http.NewRequest` gives a request and the
client is not nil, exactly that request is handed to `Client.Do`. -/
theorem sentRequests_of_built {lib : Lib} {a : Auth} {serviceUrl : ServiceUrl}
    {action : GoString} {body : Payload} {reqBody : Bytes} {req : Request} {client : Client}
    (hm : MarshalIndent lib (reqEnvelope a serviceUrl body) "  " "  " = .ok reqBody)
    (hb : buildRequest lib serviceUrl action reqBody = some req)
    (hc : a.Client = some client) :
    sentRequests (request lib a serviceUrl action body).events = [req] := by
  unfold request
  cases hd : client.Do req with
  | error err =>
    simp only [hm, hb, hc, hd, sentRequests_append, sentRequests_ite_logf,
      sentRequests_ite_printf, sentRequests]
    rfl
  | ok resp =>
    simp only [hm, hb, hc, hd, sentRequests_append, sentRequests_ite_logf,
      sentRequests_ite_printf, sentRequests_receive, sentRequests]
    rfl

/-- A request is built whenever `http.NewRequest` raises no error. -/
theorem buildRequest_isSome {lib : Lib} {serviceUrl : ServiceUrl} (action : GoString)
    (reqBody : Bytes) (hn : lib.newRequestError "POST" serviceUrl.String = none) :
    ∃ req, buildRequest lib serviceUrl action reqBody = some req := by
  simp only [buildRequest, NewRequest, hn]
  exact ⟨_, rfl⟩

/-- C6, as stated, fails: for an endpoint whose scheme is written in upper
case, the URL of the request handed to the HTTP client prints with the scheme
in lower case, so its text is not the string `serviceUrl.String()`. -/
theorem request_url_text_differs :
    ¬ ∀ (lib : Lib) (a : Auth) (serviceUrl : ServiceUrl) (action : GoString) (body : Payload),
        (serviceUrl.String =
          if serviceUrl.Name = "" then serviceUrl.Url
          else serviceUrl.Url ++ "/" ++ serviceUrl.Name) ∧
        ServiceUrl.String ⟨"https://example/api/cm/v1", "WidgetService"⟩ =
          "https://example/api/cm/v1/WidgetService" ∧
        ∀ r ∈ sentRequests (request lib a serviceUrl action body).events,
          r.URL.text = serviceUrl.String := by
  intro h
  have h1 := (h sampleLib (sampleAuth (answering "200 OK" 200 plainEnvelope none))
    ⟨"HTTPS://example/api/cm/v1", "WidgetService"⟩ "get" samplePayload).2.2
    (sampleRequest ⟨"HTTPS://example/api/cm/v1", "WidgetService"⟩) (by decide)
  revert h1
  decide

/-- C6, amended: `s.String()` is `s.Url`, a slash and `s.Name` when `s.Name` is
not empty, and `s.Url` alone when it is; the sample endpoint resolves to
`https://example/api/cm/v1/WidgetService`; every request that `request` hands
to the HTTP client has as its URL what `url.Parse` makes of
`serviceUrl.String()`; and when the envelope marshals, `http.NewRequest`
accepts that string and the client is not nil, exactly one request, with that
URL, is handed to the client. -/
theorem serviceUrl_string_is_parsed_request_url (lib : Lib) (a : Auth)
    (serviceUrl : ServiceUrl) (action : GoString) (body : Payload) :
    (serviceUrl.String =
        if serviceUrl.Name = "" then serviceUrl.Url
        else serviceUrl.Url ++ "/" ++ serviceUrl.Name) ∧
      ServiceUrl.String ⟨"https://example/api/cm/v1", "WidgetService"⟩ =
        "https://example/api/cm/v1/WidgetService" ∧
      (∀ r ∈ sentRequests (request lib a serviceUrl action body).events,
        r.URL = lib.urlParse serviceUrl.String) ∧
      ∀ (reqBody : Bytes) (client : Client),
        MarshalIndent lib (reqEnvelope a serviceUrl body) "  " "  " = .ok reqBody →
        lib.newRequestError "POST" serviceUrl.String = none →
        a.Client = some client →
        ∃ req, sentRequests (request lib a serviceUrl action body).events = [req] ∧
          req.URL = lib.urlParse serviceUrl.String := by
  refine ⟨?_, by decide, ?_, ?_⟩
  · unfold ServiceUrl.String
    by_cases h : serviceUrl.Name = "" <;> simp [h]
  · intro r hr
    obtain ⟨reqBody, -, hb⟩ := sentRequests_eq lib a serviceUrl action body r hr
    rw [buildRequest_eq_some hb]
  · intro reqBody client hm hn hc
    obtain ⟨req, hb⟩ := buildRequest_isSome action reqBody hn
    refine ⟨req, sentRequests_of_built hm hb hc, ?_⟩
    rw [buildRequest_eq_some hb]

theorem serviceUrl_string_is_parsed_request_url_witness :
    ∃ req,
      sentRequests (request sampleLib (sampleAuth (answering "200 OK" 200 plainEnvelope none))
          campaignServiceUrl "get" samplePayload).events = [req] ∧
        req.URL = sampleLib.urlParse campaignServiceUrl.String :=
  (serviceUrl_string_is_parsed_request_url sampleLib
    (sampleAuth (answering "200 OK" 200 plainEnvelope none)) campaignServiceUrl "get"
    samplePayload).2.2.2 (bytesOf "<Envelope></Envelope>")
    (answering "200 OK" 200 plainEnvelope none) rfl rfl rfl

/-- C7: when the envelope serializes to `reqBody` and `http.NewRequest` gives a
request, the request `request` builds is a POST, its `Accept` header holds
`text/xml` and `multipart/*`, its `Content-Type` is `text/xml;charset=UTF-8`,
its `Content-Length` is the decimal print of `len(reqBody)`, its `SOAPAction`
is `action` as given, its body is `reqBody`, and no other request is handed to
the HTTP client. -/
theorem request_headers (lib : Lib) (a : Auth) (serviceUrl : ServiceUrl) (action : GoString)
    (body : Payload) (reqBody : Bytes) (req : Request)
    (hm : MarshalIndent lib (reqEnvelope a serviceUrl body) "  " "  " = .ok reqBody)
    (hb : buildRequest lib serviceUrl action reqBody = some req) :
    req.Method = "POST" ∧
      req.Header.Values "Accept" = ["text/xml", "multipart/*"] ∧
      req.Header.Values "Content-Type" = ["text/xml;charset=UTF-8"] ∧
      req.Header.Values "Content-Length" = [toString reqBody.length] ∧
      req.Header.Values "SOAPAction" = [action] ∧
      req.Body = reqBody ∧
      ∀ r ∈ sentRequests (request lib a serviceUrl action body).events, r = req := by
  have hA : CanonicalMIMEHeaderKey "Accept" = "Accept" := by decide
  have hT : CanonicalMIMEHeaderKey "Content-Type" = "Content-Type" := by decide
  have hL : CanonicalMIMEHeaderKey "Content-Length" = "Content-Length" := by decide
  have hS : CanonicalMIMEHeaderKey "SOAPAction" = "Soapaction" := by decide
  have hreq := buildRequest_eq_some hb
  refine ⟨?_, ?_, ?_, ?_, ?_, ?_, ?_⟩
  · rw [hreq]
  · rw [hreq]; simp [Header.Values, headerLookup, hA]
  · rw [hreq]; simp [Header.Values, headerLookup, hT]
  · rw [hreq]; simp [Header.Values, headerLookup, hL]
  · rw [hreq]; simp [Header.Values, headerLookup, hS]
  · rw [hreq]
  · intro r hr
    obtain ⟨reqBody2, hm2, hb2⟩ := sentRequests_eq lib a serviceUrl action body r hr
    rw [hm] at hm2
    cases hm2
    rw [hb] at hb2
    exact (Option.some.inj hb2).symm

theorem request_headers_witness :
    (sampleRequest campaignServiceUrl).Method = "POST" ∧
      (sampleRequest campaignServiceUrl).Header.Values "Accept" = ["text/xml", "multipart/*"] ∧
      (sampleRequest campaignServiceUrl).Header.Values "Content-Type" =
        ["text/xml;charset=UTF-8"] ∧
      (sampleRequest campaignServiceUrl).Header.Values "Content-Length" =
        [toString (bytesOf "<Envelope></Envelope>").length] ∧
      (sampleRequest campaignServiceUrl).Header.Values "SOAPAction" = ["get"] ∧
      (sampleRequest campaignServiceUrl).Body = bytesOf "<Envelope></Envelope>" ∧
      ∀ r ∈ sentRequests
          (request sampleLib (sampleAuth (answering "200 OK" 200 plainEnvelope none))
            campaignServiceUrl "get" samplePayload).events,
        r = sampleRequest campaignServiceUrl :=
  request_headers sampleLib (sampleAuth (answering "200 OK" 200 plainEnvelope none))
    campaignServiceUrl "get" samplePayload (bytesOf "<Envelope></Envelope>")
    (sampleRequest campaignServiceUrl) rfl (by decide)

/-! ## Diagnostic logging -/

/-- With `DEBUG` unset and `Testing` nil, the only write a call can make is the
`fmt.Printf` that opens the fault branch. -/
theorem logWrites_of_quiet (lib : Lib) (a : Auth) (serviceUrl : ServiceUrl)
    (action : GoString) (body : Payload)
    (hd : lib.Getenv "DEBUG" = "") (ht : a.Testing = none) :
    ∀ ev ∈ logWrites (request lib a serviceUrl action body).events,
      ∃ data, ev = Event.Printf "unknown error ->\n%s\n" [.bytes data] := by
  intro ev hev
  unfold request at hev
  cases hm : MarshalIndent lib (reqEnvelope a serviceUrl body) "  " "  " with
  | error err => simp [hm, logWrites] at hev
  | ok reqBody =>
    cases hb : buildRequest lib serviceUrl action reqBody with
    | none => simp [hm, hb, logWrites] at hev
    | some req =>
      cases hc : a.Client with
      | none => simp [hm, hb, hc, hd, ht, logWrites] at hev
      | some client =>
        cases hdo : client.Do req with
        | error err => simp [hm, hb, hc, hdo, hd, ht, logWrites] at hev
        | ok resp =>
          cases he : lib.UnmarshalEnvelope (ReadAll resp.Body).1 with
          | error err => simp [hm, hb, hc, hdo, hd, ht, logWrites, receive, he] at hev
          | ok soapResp =>
            cases hf : lib.UnmarshalFault soapResp.Body.Response <;>
              by_cases hs : faultStatus resp.StatusCode = true <;>
              simp [hm, hb, hc, hdo, hd, ht, logWrites, receive, he, hf, hs] at hev <;>
              exact ⟨_, hev⟩

/-- C8: with `DEBUG` unset and `Testing` nil, a call that receives a 500
response whose envelope decodes still writes to standard output: the
`fmt.Printf` that opens the fault branch is not gated. -/
theorem request_fault_branch_prints :
    sampleLib.Getenv "DEBUG" = "" ∧
      (sampleAuth (answering "500 Internal Server Error" 500 faultEnvelope none)).Testing = none ∧
      logWrites
          (request sampleLib
            (sampleAuth (answering "500 Internal Server Error" 500 faultEnvelope none))
            campaignServiceUrl "get" samplePayload).events =
        [Event.Printf "unknown error ->\n%s\n" [.bytes faultInner]] := by
  decide

/-- The outcome of `receive` does not read the environment or the test hook. -/
theorem receive_outcome_congr (lib : Lib) (a : Auth) (resp : Response)
    (getenv : GoString → GoString) (testing : Option TestingT) :
    (receive { lib with Getenv := getenv } { a with Testing := testing } resp).outcome =
      (receive lib a resp).outcome := by
  cases he : lib.UnmarshalEnvelope (ReadAll resp.Body).1 with
  | error err => simp only [receive, he]
  | ok soapResp =>
    cases hf : lib.UnmarshalFault soapResp.Body.Response <;>
      simp only [receive, he, hf] <;> split_ifs <;> rfl

/-- Two calls that marshal alike, build the same request, share the client and
decode alike end the same way and send the same requests. -/
theorem request_congr (lib lib2 : Lib) (a a2 : Auth) (serviceUrl : ServiceUrl)
    (action : GoString) (body : Payload)
    (hm : MarshalIndent lib2 (reqEnvelope a2 serviceUrl body) "  " "  " =
      MarshalIndent lib (reqEnvelope a serviceUrl body) "  " "  ")
    (hb : ∀ reqBody, buildRequest lib2 serviceUrl action reqBody =
      buildRequest lib serviceUrl action reqBody)
    (hc : a2.Client = a.Client)
    (hr : ∀ resp, (receive lib2 a2 resp).outcome = (receive lib a resp).outcome) :
    (request lib2 a2 serviceUrl action body).outcome =
        (request lib a serviceUrl action body).outcome ∧
      sentRequests (request lib2 a2 serviceUrl action body).events =
        sentRequests (request lib a serviceUrl action body).events := by
  unfold request
  rw [hm, hc]
  cases MarshalIndent lib (reqEnvelope a serviceUrl body) "  " "  " with
  | error err => exact ⟨rfl, rfl⟩
  | ok reqBody =>
    simp only [hb]
    cases buildRequest lib serviceUrl action reqBody with
    | none => exact ⟨rfl, rfl⟩
    | some req =>
      cases a.Client with
      | none =>
        simp only [sentRequests_append, sentRequests_ite_logf, sentRequests_ite_printf,
          and_self]
      | some client =>
        cases hd : client.Do req with
        | error err =>
          simp only [hd, sentRequests_append, sentRequests_ite_logf,
            sentRequests_ite_printf, and_self]
        | ok resp =>
          simp only [hd, sentRequests_append, sentRequests_ite_logf,
            sentRequests_ite_printf, sentRequests_receive, hr, and_self]

/-- C9: two calls that differ only in the process environment and in the
`Testing` hook end the same way (same bytes and error, or both panic) and hand
the same requests to the HTTP client. -/
theorem logging_does_not_affect_control_flow (lib : Lib) (a : Auth) (serviceUrl : ServiceUrl)
    (action : GoString) (body : Payload) (getenv1 getenv2 : GoString → GoString)
    (testing1 testing2 : Option TestingT) :
    (request { lib with Getenv := getenv1 } { a with Testing := testing1 }
          serviceUrl action body).outcome =
        (request { lib with Getenv := getenv2 } { a with Testing := testing2 }
          serviceUrl action body).outcome ∧
      sentRequests (request { lib with Getenv := getenv1 } { a with Testing := testing1 }
          serviceUrl action body).events =
        sentRequests (request { lib with Getenv := getenv2 } { a with Testing := testing2 }
          serviceUrl action body).events := by
  have h1 := request_congr lib { lib with Getenv := getenv1 } a { a with Testing := testing1 }
    serviceUrl action body rfl (fun _ => rfl) rfl
    (fun resp => receive_outcome_congr lib a resp getenv1 testing1)
  have h2 := request_congr lib { lib with Getenv := getenv2 } a { a with Testing := testing2 }
    serviceUrl action body rfl (fun _ => rfl) rfl
    (fun resp => receive_outcome_congr lib a resp getenv2 testing2)
  exact ⟨h1.1.trans h2.1.symm, h1.2.trans h2.2.symm⟩

end Gads
